import Mathlib

/-!
Verification development for the Antrea endpoint network-policy query engine
(`pkg/controller/networkpolicy/controller_querier_replier.go`, current revision).

The Go function `QueryNetworkPolicies` is shallowly embedded below.  Its
collaborators (pod lister, the three indexed stores) are parameters of the
`NetworkPolicyController` record, as the spec treats them as external
collaborators.  Go's early `return resp, err` exits are modelled with
`Except Outcome`; an unchecked Go type assertion `x.(*T)` that fails aborts
the process, modelled by the distinguished outcome `Outcome.panicked`.
-/

namespace AntreaQuery

/-- Rule direction (`networkingv1beta1.Direction`): `DirectionIn` is ingress,
`DirectionOut` is egress. -/
inductive Direction where
  | DirectionIn : Direction
  | DirectionOut : Direction
deriving DecidableEq, Repr

/-- Response `PolicyRef{Namespace, Name, UID}`. -/
structure PolicyRef where
  Namespace : String
  Name : String
  UID : String
deriving DecidableEq, Repr

/-- Response `Policy` (embeds `PolicyRef`; the private zero-valued `selector`
field is never set by the query code and is omitted). -/
structure Policy extends PolicyRef
deriving DecidableEq, Repr

/-- Response `Rule{PolicyRef, Direction, RuleIndex}`. -/
structure Rule extends PolicyRef where
  Direction : Direction
  RuleIndex : Nat
deriving DecidableEq, Repr

/-- Response `Endpoint{Namespace, Name, Policies, Rules}`. -/
structure Endpoint where
  Namespace : String
  Name : String
  Policies : List Policy
  Rules : List Rule
deriving DecidableEq, Repr

/-- Response `EndpointQueryResponse{Endpoints}` (a nil Go slice is `[]`). -/
structure EndpointQueryResponse where
  Endpoints : List Endpoint
deriving DecidableEq, Repr

/-- Internal `NetworkPolicyPeer`: the `AddressGroups` field is a list of
AddressGroup UID strings. -/
structure NetworkPolicyPeer where
  AddressGroups : List String
deriving DecidableEq, Repr

/-- Internal `NetworkPolicyRule` with a stored `Direction` flag (unused by the
query code, which derives direction from which peer list matched) and the
`From`/`To` peers. -/
structure NetworkPolicyRule where
  Direction : Direction
  From : NetworkPolicyPeer
  To : NetworkPolicyPeer
deriving DecidableEq, Repr

/-- Internal `antreatypes.NetworkPolicy`. -/
structure NetworkPolicy where
  UID : String
  Name : String
  Namespace : String
  Rules : List NetworkPolicyRule
  AppliedToGroups : List String
deriving DecidableEq, Repr

/-- Internal `antreatypes.AppliedToGroup` (only the `UID` field is read by the
query code). -/
structure AppliedToGroup where
  UID : String
deriving DecidableEq, Repr

/-- Internal `antreatypes.AddressGroup` (only the `UID` field is read by the
query code). -/
structure AddressGroup where
  UID : String
deriving DecidableEq, Repr

/-- A record held by an indexed store: Go stores hold `interface{}` values, so
a store of one collection can dynamically contain a record of another shape. -/
inductive StoreRecord where
  | atg : AppliedToGroup → StoreRecord
  | ag : AddressGroup → StoreRecord
  | np : NetworkPolicy → StoreRecord
deriving DecidableEq, Repr

/-- Outcome of a call to `QueryNetworkPolicies`: either the process aborts on a
failed unchecked type assertion (`panicked`), or the function returns the Go
pair `(resp *EndpointQueryResponse, err error)` (`ret resp err`, where `none`
is Go's nil). -/
inductive Outcome where
  | panicked : Outcome
  | ret : Option EndpointQueryResponse → Option String → Outcome
deriving DecidableEq, Repr

/-- Modelled from the spec: the pod lister error. The Workload Existence
collaborator can fail with a NotFound-classified error or any other error;
the query code does not distinguish them. -/
inductive PodError where
  | notFound : PodError
  | other : String → PodError
deriving DecidableEq, Repr

/-- Modelled from the spec: the Indexed Store contract `GetByIndex(indexName,
indexValue) -> (records, err)`. -/
abbrev Store := String → String → Except String (List StoreRecord)

/-- Modelled from the spec: index name constant `store.PodIndex` (the store
package is outside the embedded source; the value is an opaque token). -/
def PodIndex : String := "podIndex"

/-- Modelled from the spec: index name constant `store.AppliedToGroupIndex`. -/
def AppliedToGroupIndex : String := "appliedToGroup"

/-- Modelled from the spec: index name constant `store.AddressGroupIndex`. -/
def AddressGroupIndex : String := "addressGroup"

/-- The collaborators reachable from `eq.networkPolicyController`: the pod
lister (`podGet ns name` returns `some err` or `none` on success; the pod
object itself is discarded by the query code) and the three indexed stores. -/
structure NetworkPolicyController where
  podGet : String → String → Option PodError
  appliedToGroupStore : Store
  addressGroupStore : Store
  internalNetworkPolicyStore : Store

/-- Go `appliedToGroup.(*antreatypes.AppliedToGroup)`: an unchecked type
assertion that panics when the record has another dynamic type. -/
def asAppliedToGroup : StoreRecord → Except Outcome AppliedToGroup
  | .atg g => .ok g
  | _ => .error .panicked

/-- Go `addressGroup.(*antreatypes.AddressGroup)`: unchecked type assertion. -/
def asAddressGroup : StoreRecord → Except Outcome AddressGroup
  | .ag g => .ok g
  | _ => .error .panicked

/-- Go `policy.(*antreatypes.NetworkPolicy)`: unchecked type assertion. -/
def asNetworkPolicy : StoreRecord → Except Outcome NetworkPolicy
  | .np p => .ok p
  | _ => .error .panicked

/-- Go inner loop `for _, policy := range policies { applied = append(applied,
policy.(*antreatypes.NetworkPolicy)) }`: casts each policy record in order. -/
def castPolicies : List StoreRecord → Except Outcome (List NetworkPolicy)
  | [] => .ok []
  | record :: rest =>
    match asNetworkPolicy record with
    | .error o => .error o
    | .ok p =>
      match castPolicies rest with
      | .error o => .error o
      | .ok tail => .ok (p :: tail)

/-- Go loop `for _, appliedToGroup := range appliedToGroups { ... }`: for each
applied-to group record, cast it, fetch the policies indexed under its UID
(`GetByIndex(AppliedToGroupIndex, uid)`, returning the error on failure), and
append all of them to `applied` in iteration order. -/
def appliedPoliciesLoop (eq : NetworkPolicyController) :
    List StoreRecord → Except Outcome (List NetworkPolicy)
  | [] => .ok []
  | record :: rest =>
    match asAppliedToGroup record with
    | .error o => .error o
    | .ok atg =>
      match eq.internalNetworkPolicyStore AppliedToGroupIndex atg.UID with
      | .error e => .error (.ret none (some e))
      | .ok policyRecs =>
        match castPolicies policyRecs with
        | .error o => .error o
        | .ok pols =>
          match appliedPoliciesLoop eq rest with
          | .error o => .error o
          | .ok tail => .ok (pols ++ tail)

/-- Go `for i, rule := range policy.Rules { ... }` starting at index `j`: for
each rule, one `egress` entry `{policy, i}` per occurrence of the matched
AddressGroup UID in `rule.To.AddressGroups`, then one `ingress` entry per
occurrence in `rule.From.AddressGroups`; result is `(egress, ingress)`. -/
def scanRulesFrom (uid : String) (p : NetworkPolicy) :
    Nat → List NetworkPolicyRule → List (NetworkPolicy × Nat) × List (NetworkPolicy × Nat)
  | _, [] => ([], [])
  | j, r :: rest =>
    let tail := scanRulesFrom uid p (j + 1) rest
    ((r.To.AddressGroups.filter (fun t => t == uid)).map (fun _ => (p, j)) ++ tail.1,
     (r.From.AddressGroups.filter (fun t => t == uid)).map (fun _ => (p, j)) ++ tail.2)

/-- Scan all rules of one policy against a matched AddressGroup UID. -/
def scanPolicyRules (uid : String) (p : NetworkPolicy) :
    List (NetworkPolicy × Nat) × List (NetworkPolicy × Nat) :=
  scanRulesFrom uid p 0 p.Rules

/-- Go loop `for _, policy := range policies { for i, rule := range
policy.(*antreatypes.NetworkPolicy).Rules { ... } }`: cast each policy record,
scan its rules, and accumulate egress/ingress entries in iteration order. -/
def policiesScanLoop (uid : String) :
    List StoreRecord → Except Outcome (List (NetworkPolicy × Nat) × List (NetworkPolicy × Nat))
  | [] => .ok ([], [])
  | record :: rest =>
    match asNetworkPolicy record with
    | .error o => .error o
    | .ok p =>
      let scanned := scanPolicyRules uid p
      match policiesScanLoop uid rest with
      | .error o => .error o
      | .ok tail => .ok (scanned.1 ++ tail.1, scanned.2 ++ tail.2)

/-- Go loop `for _, addressGroup := range addressGroups { ... }`: cast the
group, fetch the policies indexed under its UID
(`GetByIndex(AddressGroupIndex, uid)`, returning the error on failure), and
scan their rules. -/
def directionalLoop (eq : NetworkPolicyController) :
    List StoreRecord → Except Outcome (List (NetworkPolicy × Nat) × List (NetworkPolicy × Nat))
  | [] => .ok ([], [])
  | record :: rest =>
    match asAddressGroup record with
    | .error o => .error o
    | .ok ag =>
      match eq.internalNetworkPolicyStore AddressGroupIndex ag.UID with
      | .error e => .error (.ret none (some e))
      | .ok policyRecs =>
        match policiesScanLoop ag.UID policyRecs with
        | .error o => .error o
        | .ok scanned =>
          match directionalLoop eq rest with
          | .error o => .error o
          | .ok tail => .ok (scanned.1 ++ tail.1, scanned.2 ++ tail.2)

/-- Shallow embedding of `EndpointQueryReplier.QueryNetworkPolicies`:
1. pod existence gate — on any lister error return `(&{Endpoints: nil}, nil)`;
2. `appliedToGroupStore.GetByIndex(PodIndex, podName+"/"+namespace)` and the
   applied-policies loop;
3. `addressGroupStore.GetByIndex(PodIndex, podName+"/"+namespace)` and the
   directional-rules loop;
4. response assembly: `applied` mapped to `Policy`, then `egress` entries
   (DirectionOut) followed by `ingress` entries (DirectionIn), one endpoint. -/
def QueryNetworkPolicies (eq : NetworkPolicyController)
    (ns podName : String) : Outcome :=
  match eq.podGet ns podName with
  | some _ => .ret (some { Endpoints := [] }) none
  | none =>
    match eq.appliedToGroupStore PodIndex (podName ++ "/" ++ ns) with
    | .error e => .ret none (some e)
    | .ok appliedToGroups =>
      match appliedPoliciesLoop eq appliedToGroups with
      | .error o => o
      | .ok applied =>
        match eq.addressGroupStore PodIndex (podName ++ "/" ++ ns) with
        | .error e => .ret none (some e)
        | .ok addressGroups =>
          match directionalLoop eq addressGroups with
          | .error o => o
          | .ok dir =>
            let responsePolicies : List Policy :=
              applied.map (fun p => { toPolicyRef := ⟨p.Namespace, p.Name, p.UID⟩ })
            let responseRules : List Rule :=
              dir.1.map (fun pi =>
                { toPolicyRef := ⟨pi.1.Namespace, pi.1.Name, pi.1.UID⟩,
                  Direction := .DirectionOut, RuleIndex := pi.2 }) ++
              dir.2.map (fun pi =>
                { toPolicyRef := ⟨pi.1.Namespace, pi.1.Name, pi.1.UID⟩,
                  Direction := .DirectionIn, RuleIndex := pi.2 })
            let endpoint : Endpoint :=
              { Namespace := ns, Name := podName,
                Policies := responsePolicies, Rules := responseRules }
            .ret (some { Endpoints := [endpoint] }) none

/-! ## Structural lemmas about the loops -/

/-- An early exit of the query body: either a panic, or a Go return of
`(nil, err)` with a non-nil error. -/
def earlyExit (o : Outcome) : Prop :=
  o = .panicked ∨ ∃ e, o = .ret none (some e)

/-- A failing applied-to-group cast only panics. -/
theorem asAppliedToGroup_error {r : StoreRecord} {o : Outcome}
    (h : asAppliedToGroup r = .error o) : o = .panicked := by
  cases r <;> simp_all [asAppliedToGroup]

/-- A failing address-group cast only panics. -/
theorem asAddressGroup_error {r : StoreRecord} {o : Outcome}
    (h : asAddressGroup r = .error o) : o = .panicked := by
  cases r <;> simp_all [asAddressGroup]

/-- A failing policy cast only panics. -/
theorem asNetworkPolicy_error {r : StoreRecord} {o : Outcome}
    (h : asNetworkPolicy r = .error o) : o = .panicked := by
  cases r <;> simp_all [asNetworkPolicy]

/-- A successful policy cast pins down the record. -/
theorem asNetworkPolicy_ok {r : StoreRecord} {p : NetworkPolicy}
    (h : asNetworkPolicy r = .ok p) : r = .np p := by
  cases r <;> simp_all [asNetworkPolicy]

/-- `castPolicies` fails only by panicking. -/
theorem castPolicies_error : ∀ {rs : List StoreRecord} {o : Outcome},
    castPolicies rs = .error o → o = .panicked := by
  intro rs
  induction rs with
  | nil => intro o h; simp [castPolicies] at h
  | cons r rest ih =>
    intro o h
    unfold castPolicies at h
    cases hr : asNetworkPolicy r with
    | error o1 =>
      rw [hr] at h
      simp at h
      exact h ▸ asNetworkPolicy_error hr
    | ok p =>
      rw [hr] at h
      dsimp only at h
      cases hc : castPolicies rest with
      | error o2 =>
        rw [hc] at h
        simp at h
        exact h ▸ ih hc
      | ok tail =>
        rw [hc] at h
        simp at h

/-- Every error exit of the applied-policies loop is an early exit. -/
theorem appliedPoliciesLoop_error (eq : NetworkPolicyController) :
    ∀ {gs : List StoreRecord} {o : Outcome},
    appliedPoliciesLoop eq gs = .error o → earlyExit o := by
  intro gs
  induction gs with
  | nil => intro o h; simp [appliedPoliciesLoop] at h
  | cons g rest ih =>
    intro o h
    unfold appliedPoliciesLoop at h
    cases hg : asAppliedToGroup g with
    | error o1 =>
      rw [hg] at h
      simp at h
      exact Or.inl (h ▸ asAppliedToGroup_error hg)
    | ok atg =>
      rw [hg] at h
      dsimp only at h
      cases hs : eq.internalNetworkPolicyStore AppliedToGroupIndex atg.UID with
      | error e =>
        rw [hs] at h
        simp at h
        exact Or.inr ⟨e, h.symm⟩
      | ok policyRecs =>
        rw [hs] at h
        dsimp only at h
        cases hc : castPolicies policyRecs with
        | error o2 =>
          rw [hc] at h
          simp at h
          exact Or.inl (h ▸ castPolicies_error hc)
        | ok pols =>
          rw [hc] at h
          dsimp only at h
          cases hl : appliedPoliciesLoop eq rest with
          | error o3 =>
            rw [hl] at h
            simp at h
            exact h ▸ ih hl
          | ok tail =>
            rw [hl] at h
            simp at h

/-- `policiesScanLoop` fails only by panicking. -/
theorem policiesScanLoop_error (uid : String) :
    ∀ {rs : List StoreRecord} {o : Outcome},
    policiesScanLoop uid rs = .error o → o = .panicked := by
  intro rs
  induction rs with
  | nil => intro o h; simp [policiesScanLoop] at h
  | cons r rest ih =>
    intro o h
    unfold policiesScanLoop at h
    cases hr : asNetworkPolicy r with
    | error o1 =>
      rw [hr] at h
      simp at h
      exact h ▸ asNetworkPolicy_error hr
    | ok p =>
      rw [hr] at h
      dsimp only at h
      cases hl : policiesScanLoop uid rest with
      | error o2 =>
        rw [hl] at h
        simp at h
        exact h ▸ ih hl
      | ok tail =>
        rw [hl] at h
        simp at h

/-- Every error exit of the directional loop is an early exit. -/
theorem directionalLoop_error (eq : NetworkPolicyController) :
    ∀ {gs : List StoreRecord} {o : Outcome},
    directionalLoop eq gs = .error o → earlyExit o := by
  intro gs
  induction gs with
  | nil => intro o h; simp [directionalLoop] at h
  | cons g rest ih =>
    intro o h
    unfold directionalLoop at h
    cases hg : asAddressGroup g with
    | error o1 =>
      rw [hg] at h
      simp at h
      exact Or.inl (h ▸ asAddressGroup_error hg)
    | ok ag =>
      rw [hg] at h
      dsimp only at h
      cases hs : eq.internalNetworkPolicyStore AddressGroupIndex ag.UID with
      | error e =>
        rw [hs] at h
        simp at h
        exact Or.inr ⟨e, h.symm⟩
      | ok policyRecs =>
        rw [hs] at h
        dsimp only at h
        cases hc : policiesScanLoop ag.UID policyRecs with
        | error o2 =>
          rw [hc] at h
          simp at h
          exact Or.inl (h ▸ policiesScanLoop_error _ hc)
        | ok scanned =>
          rw [hc] at h
          dsimp only at h
          cases hl : directionalLoop eq rest with
          | error o3 =>
            rw [hl] at h
            simp at h
            exact h ▸ ih hl
          | ok tail =>
            rw [hl] at h
            simp at h

/-! ## Membership lemmas for the directional scan -/

/-- If rule `i` of the scanned rule-list suffix lists `uid` in its `To`
peers, the egress scan started at offset `j` contains the entry `(p, j+i)`. -/
theorem scanRulesFrom_to_mem (uid : String) (p : NetworkPolicy) :
    ∀ (rs : List NetworkPolicyRule) (j i : Nat) (r : NetworkPolicyRule),
      rs.get? i = some r → uid ∈ r.To.AddressGroups →
      (p, j + i) ∈ (scanRulesFrom uid p j rs).1 := by
  intro rs
  induction rs with
  | nil => intro j i r h _; simp at h
  | cons r0 rest ih =>
    intro j i r h hm
    cases i with
    | zero =>
      simp only [List.get?] at h
      injection h with h
      subst h
      unfold scanRulesFrom
      dsimp only
      apply List.mem_append_left
      exact List.mem_map.mpr ⟨uid, List.mem_filter.mpr ⟨hm, by simp⟩, rfl⟩
    | succ i2 =>
      unfold scanRulesFrom
      dsimp only
      apply List.mem_append_right
      have hx := ih (j + 1) i2 r (by simpa using h) hm
      have he : j + 1 + i2 = j + (i2 + 1) := by omega
      rw [he] at hx
      exact hx

/-- `From`-side analogue of `scanRulesFrom_to_mem` for the ingress scan. -/
theorem scanRulesFrom_from_mem (uid : String) (p : NetworkPolicy) :
    ∀ (rs : List NetworkPolicyRule) (j i : Nat) (r : NetworkPolicyRule),
      rs.get? i = some r → uid ∈ r.From.AddressGroups →
      (p, j + i) ∈ (scanRulesFrom uid p j rs).2 := by
  intro rs
  induction rs with
  | nil => intro j i r h _; simp at h
  | cons r0 rest ih =>
    intro j i r h hm
    cases i with
    | zero =>
      simp only [List.get?] at h
      injection h with h
      subst h
      unfold scanRulesFrom
      dsimp only
      apply List.mem_append_left
      exact List.mem_map.mpr ⟨uid, List.mem_filter.mpr ⟨hm, by simp⟩, rfl⟩
    | succ i2 =>
      unfold scanRulesFrom
      dsimp only
      apply List.mem_append_right
      have hx := ih (j + 1) i2 r (by simpa using h) hm
      have he : j + 1 + i2 = j + (i2 + 1) := by omega
      rw [he] at hx
      exact hx

/-- A policy record present in the scanned list contributes all entries of its
own rule scan to the loop's accumulated egress and ingress lists. -/
theorem policiesScanLoop_mem (uid : String) :
    ∀ {rs : List StoreRecord}
      {out : List (NetworkPolicy × Nat) × List (NetworkPolicy × Nat)},
    policiesScanLoop uid rs = .ok out →
    ∀ {p : NetworkPolicy}, StoreRecord.np p ∈ rs →
    (∀ x, x ∈ (scanPolicyRules uid p).1 → x ∈ out.1) ∧
    (∀ x, x ∈ (scanPolicyRules uid p).2 → x ∈ out.2) := by
  intro rs
  induction rs with
  | nil => intro out h p hp; simp at hp
  | cons g rest ih =>
    intro out h p hp
    unfold policiesScanLoop at h
    cases hg : asNetworkPolicy g with
    | error o => rw [hg] at h; simp at h
    | ok p2 =>
      rw [hg] at h
      dsimp only at h
      cases hl : policiesScanLoop uid rest with
      | error o => rw [hl] at h; simp at h
      | ok tail =>
        rw [hl] at h
        simp only [Except.ok.injEq] at h
        subst h
        rcases List.mem_cons.mp hp with he | hrest
        · have hp2 : p2 = p := by
            rw [← he] at hg
            simpa [asNetworkPolicy] using hg.symm
          subst hp2
          exact ⟨fun x hx => List.mem_append_left _ hx,
                 fun x hx => List.mem_append_left _ hx⟩
        · have hm := ih hl hrest
          exact ⟨fun x hx => List.mem_append_right _ (hm.1 x hx),
                 fun x hx => List.mem_append_right _ (hm.2 x hx)⟩

/-- A matched AddressGroup present in the traversed list determines a
successful scan over its indexed policies, whose entries all land in the
loop's accumulated egress and ingress lists. -/
theorem directionalLoop_mem (eq : NetworkPolicyController) :
    ∀ {gs : List StoreRecord}
      {out : List (NetworkPolicy × Nat) × List (NetworkPolicy × Nat)},
    directionalLoop eq gs = .ok out →
    ∀ {ag : AddressGroup}, StoreRecord.ag ag ∈ gs →
    ∀ {recs : List StoreRecord},
      eq.internalNetworkPolicyStore AddressGroupIndex ag.UID = .ok recs →
    ∃ scanned, policiesScanLoop ag.UID recs = .ok scanned ∧
      (∀ x, x ∈ scanned.1 → x ∈ out.1) ∧ (∀ x, x ∈ scanned.2 → x ∈ out.2) := by
  intro gs
  induction gs with
  | nil => intro out h ag hag; simp at hag
  | cons g rest ih =>
    intro out h ag hag recs hrecs
    unfold directionalLoop at h
    cases hg : asAddressGroup g with
    | error o => rw [hg] at h; simp at h
    | ok ag2 =>
      rw [hg] at h
      dsimp only at h
      cases hs : eq.internalNetworkPolicyStore AddressGroupIndex ag2.UID with
      | error e => rw [hs] at h; simp at h
      | ok policyRecs =>
        rw [hs] at h
        dsimp only at h
        cases hc : policiesScanLoop ag2.UID policyRecs with
        | error o => rw [hc] at h; simp at h
        | ok scanned =>
          rw [hc] at h
          dsimp only at h
          cases hl : directionalLoop eq rest with
          | error o => rw [hl] at h; simp at h
          | ok tail =>
            rw [hl] at h
            simp only [Except.ok.injEq] at h
            subst h
            rcases List.mem_cons.mp hag with he | hrest
            · have hag2 : ag2 = ag := by
                rw [← he] at hg
                simpa [asAddressGroup] using hg.symm
              subst hag2
              rw [hrecs] at hs
              injection hs with hs
              subst hs
              exact ⟨scanned, hc,
                fun x hx => List.mem_append_left _ hx,
                fun x hx => List.mem_append_left _ hx⟩
            · rcases ih hl hrest hrecs with ⟨sc, hsc, m1, m2⟩
              exact ⟨sc, hsc,
                fun x hx => List.mem_append_right _ (m1 x hx),
                fun x hx => List.mem_append_right _ (m2 x hx)⟩

/-! ## Spec-mandated ordering predicate -/

/-- Byte-order comparison of characters. -/
def charLtb (a b : Char) : Bool := decide (a.toNat < b.toNat)

/-- Lexicographic order on character lists. -/
def charListLtb : List Char → List Char → Bool
  | _, [] => false
  | [], _ :: _ => true
  | a :: as, b :: bs => charLtb a b || (a == b && charListLtb as bs)

/-- Lexicographic (strict) order on strings, over their character lists. -/
def strLtb (a b : String) : Bool := charListLtb a.toList b.toList

/-- Reflexive closure of `strLtb`. -/
def strLeb (a b : String) : Bool := strLtb a b || a == b

/-- Modelled from the spec: the mandated sort key for `Policies`,
lexicographic on `(Namespace, Name, UID)`. -/
def specPolicyRefLe (a b : PolicyRef) : Bool :=
  strLtb a.Namespace b.Namespace ||
    (a.Namespace == b.Namespace &&
      (strLtb a.Name b.Name ||
        (a.Name == b.Name && strLeb a.UID b.UID)))

/-- Modelled from the spec: `Policies` entries must be sorted by
`(Namespace, Name, UID)`; adjacent entries must be in order. -/
def specPoliciesSorted : List Policy → Bool
  | [] => true
  | a :: rest =>
    match rest with
    | [] => true
    | b :: _ => specPolicyRefLe a.toPolicyRef b.toPolicyRef && specPoliciesSorted rest

/-! ## Concrete scenarios -/

/-- C1 scenario: one policy reachable through two distinct matching
AppliedToGroups `g1` and `g2`. -/
def c1p1 : NetworkPolicy :=
  { UID := "p1", Name := "policy1", Namespace := "nsA", Rules := [],
    AppliedToGroups := ["g1", "g2"] }

/-- C1 scenario controller: pod `podA/nsA` exists and belongs to applied-to
groups `g1` and `g2`, both linked to the single policy `c1p1`. -/
def c1ctrl : NetworkPolicyController where
  podGet := fun _ _ => none
  appliedToGroupStore := fun idxName idxVal =>
    if idxName == PodIndex && idxVal == "podA/nsA" then
      .ok [.atg ⟨"g1"⟩, .atg ⟨"g2"⟩]
    else .ok []
  addressGroupStore := fun _ _ => .ok []
  internalNetworkPolicyStore := fun idxName idxVal =>
    if idxName == AppliedToGroupIndex && (idxVal == "g1" || idxVal == "g2") then
      .ok [.np c1p1]
    else .ok []

/-- The response `Policy` entry generated for `c1p1`. -/
def c1ref : Policy := ⟨⟨"nsA", "policy1", "p1"⟩⟩

/-- The endpoint produced by the C1 scenario: the same policy entry twice. -/
def c1endpoint : Endpoint :=
  { Namespace := "nsA", Name := "podA", Policies := [c1ref, c1ref], Rules := [] }

/-- C2 scenario controller: the pod lister reports NotFound, while every store
contains data that would be reachable if the gate were passed. -/
def c2ctrl : NetworkPolicyController where
  podGet := fun _ _ => some .notFound
  appliedToGroupStore := fun _ _ => .ok [.atg ⟨"g1"⟩]
  addressGroupStore := fun _ _ => .ok [.ag ⟨"g2"⟩]
  internalNetworkPolicyStore := fun _ _ => .ok [.np c1p1]

/-- C4 scenario: one policy whose single rule lists both AddressGroups `g1`
and `g2` in its `To` peer set. -/
def c4p : NetworkPolicy :=
  { UID := "p4", Name := "policy4", Namespace := "nsA",
    Rules := [{ Direction := .DirectionOut, From := ⟨[]⟩, To := ⟨["g1", "g2"]⟩ }],
    AppliedToGroups := [] }

/-- C4 scenario controller: pod `podA/nsA` is a member of AddressGroups `g1`
and `g2`; the same rule of `c4p` matches through both. -/
def c4ctrl : NetworkPolicyController where
  podGet := fun _ _ => none
  appliedToGroupStore := fun _ _ => .ok []
  addressGroupStore := fun idxName idxVal =>
    if idxName == PodIndex && idxVal == "podA/nsA" then
      .ok [.ag ⟨"g1"⟩, .ag ⟨"g2"⟩]
    else .ok []
  internalNetworkPolicyStore := fun idxName idxVal =>
    if idxName == AddressGroupIndex && (idxVal == "g1" || idxVal == "g2") then
      .ok [.np c4p]
    else .ok []

/-- The egress response `Rule` entry generated for rule 0 of `c4p`. -/
def c4rule : Rule :=
  { toPolicyRef := ⟨"nsA", "policy4", "p4"⟩, Direction := .DirectionOut, RuleIndex := 0 }

/-- The endpoint produced by the C4 scenario: the same rule entry twice. -/
def c4endpoint : Endpoint :=
  { Namespace := "nsA", Name := "podA", Policies := [], Rules := [c4rule, c4rule] }

/-- C5 scenario controller: the AppliedToGroup store answers the pod-index
query with a record whose dynamic type is `NetworkPolicy`, not
`AppliedToGroup`. -/
def c5ctrl : NetworkPolicyController where
  podGet := fun _ _ => none
  appliedToGroupStore := fun idxName idxVal =>
    if idxName == PodIndex && idxVal == "podA/nsA" then .ok [.np c1p1] else .ok []
  addressGroupStore := fun _ _ => .ok []
  internalNetworkPolicyStore := fun _ _ => .ok []

/-- C7 scenario policies: `policyA` sorts strictly before `policyB` under the
mandated `(Namespace, Name, UID)` order. -/
def c7pA : NetworkPolicy :=
  { UID := "pA", Name := "policyA", Namespace := "nsA", Rules := [], AppliedToGroups := ["g1"] }

/-- C7 scenario: second policy, later in sort order. -/
def c7pB : NetworkPolicy :=
  { UID := "pB", Name := "policyB", Namespace := "nsA", Rules := [], AppliedToGroups := ["g1"] }

/-- C7 scenario controller: the index returns the two policies in reverse
sort order (`policyB` before `policyA`), which the store contract allows. -/
def c7ctrl : NetworkPolicyController where
  podGet := fun _ _ => none
  appliedToGroupStore := fun idxName idxVal =>
    if idxName == PodIndex && idxVal == "podA/nsA" then .ok [.atg ⟨"g1"⟩] else .ok []
  addressGroupStore := fun _ _ => .ok []
  internalNetworkPolicyStore := fun idxName idxVal =>
    if idxName == AppliedToGroupIndex && idxVal == "g1" then
      .ok [.np c7pB, .np c7pA]
    else .ok []

/-- The endpoint produced by the C7 scenario: policies in traversal order. -/
def c7endpoint : Endpoint :=
  { Namespace := "nsA", Name := "podA",
    Policies := [⟨⟨"nsA", "policyB", "pB"⟩⟩, ⟨⟨"nsA", "policyA", "pA"⟩⟩], Rules := [] }

/-- C8 counterexample controller: the pod lister reports NotFound. -/
def c8ctrl : NetworkPolicyController where
  podGet := fun _ _ => some .notFound
  appliedToGroupStore := fun _ _ => .ok []
  addressGroupStore := fun _ _ => .ok []
  internalNetworkPolicyStore := fun _ _ => .ok []

/-- C9 witness controller: pod exists, all indexes are empty. -/
def c9ctrl : NetworkPolicyController where
  podGet := fun _ _ => none
  appliedToGroupStore := fun _ _ => .ok []
  addressGroupStore := fun _ _ => .ok []
  internalNetworkPolicyStore := fun _ _ => .ok []

/-- C10 witness controller: the pod lister fails with a non-NotFound error;
stores hold reachable data. -/
def c10ctrl : NetworkPolicyController where
  podGet := fun _ _ => some (.other "connection refused")
  appliedToGroupStore := fun _ _ => .ok [.atg ⟨"g1"⟩]
  addressGroupStore := fun _ _ => .ok [.ag ⟨"g2"⟩]
  internalNetworkPolicyStore := fun _ _ => .ok [.np c1p1]

/-- The endpoint returned for an existing workload with no group matches. -/
def emptyEndpoint (ns pn : String) : Endpoint :=
  { Namespace := ns, Name := pn, Policies := [], Rules := [] }

/-! ## Claim theorems -/

/-- C1: the claim says the applied-policy result set is deduplicated by Policy
UID.  The code is not: with policy `p1` reachable through the two distinct
matching AppliedToGroups `g1` and `g2`, the returned `Policies` list contains
the entry for UID `p1` twice. -/
theorem c1_applied_policies_not_deduplicated :
    QueryNetworkPolicies c1ctrl "nsA" "podA" =
      .ret (some { Endpoints := [c1endpoint] }) none ∧
    (List.countP (fun q => q.UID == "p1") [c1ref, c1ref] = 2) := by
  exact ⟨by decide, by decide⟩

/-- C2: the claim says a not-found workload yields `Endpoints = nil` carrying
a NotFound error.  The code does return `Endpoints = nil` and performs no
store lookups, but it swallows the lister error: the returned Go error value
is nil (`Outcome.ret (some response) none`), not a NotFound error. -/
theorem c2_notfound_error_swallowed :
    QueryNetworkPolicies c2ctrl "nsA" "podA" = .ret (some { Endpoints := [] }) none ∧
    (∀ e : String, QueryNetworkPolicies c2ctrl "nsA" "podA" ≠
      .ret (some { Endpoints := [] }) (some e)) := by
  refine ⟨by decide, ?_⟩
  intro e h
  rw [show QueryNetworkPolicies c2ctrl "nsA" "podA" =
    .ret (some { Endpoints := [] }) none from by decide] at h
  simp at h

/-- C4: the claim says two directional-rule matches that reduce to the same
`(PolicyUID, RuleIndex, Direction)` triple collapse to one entry.  The code
appends one entry per AddressGroup context: rule 0 of `c4p`, matched through
both `g1` and `g2`, appears twice in the returned `Rules` list. -/
theorem c4_rules_not_deduplicated :
    QueryNetworkPolicies c4ctrl "nsA" "podA" =
      .ret (some { Endpoints := [c4endpoint] }) none ∧
    (List.countP (fun r =>
      r.UID == "p4" && r.RuleIndex == 0 && r.Direction == Direction.DirectionOut)
      [c4rule, c4rule] = 2) := by
  exact ⟨by decide, by decide⟩

/-- C5: the claim says a store record of unexpected dynamic type is returned
as a recoverable error and never crashes the process.  The code performs the
unchecked assertion `appliedToGroup.(*antreatypes.AppliedToGroup)`: when the
AppliedToGroup store holds a `NetworkPolicy` record, the query panics instead
of returning an error. -/
theorem c5_type_mismatch_panics :
    QueryNetworkPolicies c5ctrl "nsA" "podA" = .panicked := by
  decide

/-- C7: the claim says `Policies` entries are sorted by
`(Namespace, Name, UID)`.  The code emits them in index-traversal order: when
the store yields `policyB` before `policyA`, the response keeps that order,
which violates the mandated sort. -/
theorem c7_output_not_sorted :
    QueryNetworkPolicies c7ctrl "nsA" "podA" =
      .ret (some { Endpoints := [c7endpoint] }) none ∧
    specPoliciesSorted c7endpoint.Policies = false := by
  exact ⟨by decide, by decide⟩

/-- C8 counterexample: on the workload-not-found branch the code returns no
error (`none`) yet `Endpoints` is nil rather than a singleton, so "no error
returned implies exactly one Endpoint" fails as stated. -/
theorem c8_counterexample_notfound_no_error_empty :
    QueryNetworkPolicies c8ctrl "nsA" "podA" = .ret (some { Endpoints := [] }) none ∧
    (∀ ep : Endpoint, ([] : List Endpoint) ≠ [ep]) := by
  exact ⟨by decide, fun ep h => List.noConfusion h⟩

/-- C9: an existing workload that is a member of zero AppliedToGroups and zero
AddressGroups (both PodIndex lookups return the empty list) yields no error
and exactly one Endpoint with empty `Policies` and empty `Rules`. -/
theorem c9_no_groups_empty_singleton (eq : NetworkPolicyController) (ns pn : String)
    (h1 : eq.podGet ns pn = none)
    (h2 : eq.appliedToGroupStore PodIndex (pn ++ "/" ++ ns) = .ok [])
    (h3 : eq.addressGroupStore PodIndex (pn ++ "/" ++ ns) = .ok []) :
    QueryNetworkPolicies eq ns pn =
      .ret (some { Endpoints := [emptyEndpoint ns pn] }) none := by
  unfold QueryNetworkPolicies
  rw [h1, h2, h3]
  rfl

/-- C9 witness: the theorem applied to the concrete controller whose indexes
are all empty. -/
theorem c9_no_groups_empty_singleton_witness :
    QueryNetworkPolicies c9ctrl "nsA" "podA" =
      .ret (some { Endpoints := [emptyEndpoint "nsA" "podA"] }) none :=
  c9_no_groups_empty_singleton c9ctrl "nsA" "podA" rfl rfl rfl

/-- C10: any pod-lister error — NotFound-classified or not — makes the code
return a non-nil response with nil `Endpoints` and a nil error, and the result
is independent of the contents of all three stores (no store is consulted). -/
theorem c10_any_lister_error_short_circuits (eq : NetworkPolicyController)
    (ns pn : String) (e : PodError) (h : eq.podGet ns pn = some e) :
    QueryNetworkPolicies eq ns pn = .ret (some { Endpoints := [] }) none ∧
    (∀ eq' : NetworkPolicyController, eq'.podGet = eq.podGet →
      QueryNetworkPolicies eq' ns pn = .ret (some { Endpoints := [] }) none) := by
  constructor
  · unfold QueryNetworkPolicies
    rw [h]
  · intro eq' he
    unfold QueryNetworkPolicies
    rw [he, h]

/-- C10 witness: the theorem applied to a controller whose lister fails with a
non-NotFound error while all stores hold data. -/
theorem c10_any_lister_error_short_circuits_witness :
    QueryNetworkPolicies c10ctrl "nsA" "podA" = .ret (some { Endpoints := [] }) none ∧
    (∀ eq' : NetworkPolicyController, eq'.podGet = c10ctrl.podGet →
      QueryNetworkPolicies eq' "nsA" "podA" = .ret (some { Endpoints := [] }) none) :=
  c10_any_lister_error_short_circuits c10ctrl "nsA" "podA" (.other "connection refused")
    (by decide)

/-- C6 witness controller: the pod exists and applied-policy resolution
succeeds (group `g1`, policy `c1p1`), but the AddressGroup store fails. -/
def c6ctrl : NetworkPolicyController where
  podGet := fun _ _ => none
  appliedToGroupStore := fun idxName idxVal =>
    if idxName == PodIndex && idxVal == "podA/nsA" then .ok [.atg ⟨"g1"⟩] else .ok []
  addressGroupStore := fun _ _ => .error "store failure"
  internalNetworkPolicyStore := fun idxName idxVal =>
    if idxName == AppliedToGroupIndex && idxVal == "g1" then .ok [.np c1p1] else .ok []

/-- C8 amended-claim witness controller: pod exists, empty indexes. -/
def c8wctrl : NetworkPolicyController where
  podGet := fun _ _ => none
  appliedToGroupStore := fun _ _ => .ok []
  addressGroupStore := fun _ _ => .ok []
  internalNetworkPolicyStore := fun _ _ => .ok []

/-- C6: whenever `QueryNetworkPolicies` returns a non-nil error, the response
is nil — no partial results ever accompany a store failure, in particular not
the applied-policy half after a later address-group store failure. -/
theorem c6_store_failure_no_partial_results (eq : NetworkPolicyController)
    (ns pn : String) (e : String) (resp : Option EndpointQueryResponse)
    (h : QueryNetworkPolicies eq ns pn = .ret resp (some e)) : resp = none := by
  unfold QueryNetworkPolicies at h
  cases hp : eq.podGet ns pn with
  | some pe => rw [hp] at h; simp at h
  | none =>
    rw [hp] at h
    dsimp only at h
    cases h1 : eq.appliedToGroupStore PodIndex (pn ++ "/" ++ ns) with
    | error e1 =>
      rw [h1] at h
      simp at h
      exact h.1.symm
    | ok appliedToGroups =>
      rw [h1] at h
      dsimp only at h
      cases h2 : appliedPoliciesLoop eq appliedToGroups with
      | error o1 =>
        rw [h2] at h
        dsimp only at h
        rcases appliedPoliciesLoop_error eq h2 with hE | ⟨e2, hE⟩
        · rw [hE] at h; simp at h
        · rw [hE] at h
          simp at h
          exact h.1.symm
      | ok applied =>
        rw [h2] at h
        dsimp only at h
        cases h3 : eq.addressGroupStore PodIndex (pn ++ "/" ++ ns) with
        | error e3 =>
          rw [h3] at h
          simp at h
          exact h.1.symm
        | ok addressGroups =>
          rw [h3] at h
          dsimp only at h
          cases h4 : directionalLoop eq addressGroups with
          | error o2 =>
            rw [h4] at h
            dsimp only at h
            rcases directionalLoop_error eq h4 with hE | ⟨e4, hE⟩
            · rw [hE] at h; simp at h
            · rw [hE] at h
              simp at h
              exact h.1.symm
          | ok dir =>
            rw [h4] at h
            simp at h

/-- C6 witness: a store failure during address-group resolution, after
applied-policy resolution already succeeded, yields a nil response with the
error, and the theorem instantiates to it. -/
theorem c6_store_failure_no_partial_results_witness :
    QueryNetworkPolicies c6ctrl "nsA" "podA" = .ret none (some "store failure") ∧
    (none : Option EndpointQueryResponse) = none :=
  ⟨by decide, c6_store_failure_no_partial_results c6ctrl "nsA" "podA" "store failure" none
    (by decide)⟩

/-- C8 (amended): once the workload-existence gate is passed, every return of
`QueryNetworkPolicies` is a panic, an error with a nil response, or a
response whose `Endpoints` list is exactly a singleton. -/
theorem c8_gate_passed_singleton (eq : NetworkPolicyController) (ns pn : String)
    (h : eq.podGet ns pn = none) :
    QueryNetworkPolicies eq ns pn = .panicked ∨
    (∃ e, QueryNetworkPolicies eq ns pn = .ret none (some e)) ∨
    (∃ ep, QueryNetworkPolicies eq ns pn = .ret (some { Endpoints := [ep] }) none) := by
  unfold QueryNetworkPolicies
  rw [h]
  dsimp only
  cases h1 : eq.appliedToGroupStore PodIndex (pn ++ "/" ++ ns) with
  | error e =>
    exact Or.inr (Or.inl ⟨e, rfl⟩)
  | ok appliedToGroups =>
    dsimp only
    cases h2 : appliedPoliciesLoop eq appliedToGroups with
    | error o =>
      dsimp only
      rcases appliedPoliciesLoop_error eq h2 with hE | ⟨e2, hE⟩
      · exact Or.inl hE
      · exact Or.inr (Or.inl ⟨e2, hE⟩)
    | ok applied =>
      dsimp only
      cases h3 : eq.addressGroupStore PodIndex (pn ++ "/" ++ ns) with
      | error e =>
        exact Or.inr (Or.inl ⟨e, rfl⟩)
      | ok addressGroups =>
        dsimp only
        cases h4 : directionalLoop eq addressGroups with
        | error o =>
          dsimp only
          rcases directionalLoop_error eq h4 with hE | ⟨e4, hE⟩
          · exact Or.inl hE
          · exact Or.inr (Or.inl ⟨e4, hE⟩)
        | ok dir =>
          dsimp only
          exact Or.inr (Or.inr ⟨_, rfl⟩)

/-- C8 witness: the amended theorem applied to a controller whose gate is
passed. -/
theorem c8_gate_passed_singleton_witness :
    QueryNetworkPolicies c8wctrl "nsA" "podA" = .panicked ∨
    (∃ e, QueryNetworkPolicies c8wctrl "nsA" "podA" = .ret none (some e)) ∨
    (∃ ep, QueryNetworkPolicies c8wctrl "nsA" "podA" =
      .ret (some { Endpoints := [ep] }) none) :=
  c8_gate_passed_singleton c8wctrl "nsA" "podA" rfl

/-- C3 witness rule: lists AddressGroup `g1` in both its `From` and `To`
peer sets. -/
def c3rule0 : NetworkPolicyRule :=
  { Direction := .DirectionIn, From := ⟨["g1"]⟩, To := ⟨["g1"]⟩ }

/-- C3 witness policy owning `c3rule0` at rule index 0. -/
def c3p : NetworkPolicy :=
  { UID := "p3", Name := "policy3", Namespace := "nsB", Rules := [c3rule0],
    AppliedToGroups := [] }

/-- C3 witness controller: pod `podB/nsB` is a member of AddressGroup `g1`,
which rule 0 of `c3p` references in both peer sets. -/
def c3ctrl : NetworkPolicyController where
  podGet := fun _ _ => none
  appliedToGroupStore := fun _ _ => .ok []
  addressGroupStore := fun idxName idxVal =>
    if idxName == PodIndex && idxVal == "podB/nsB" then .ok [.ag ⟨"g1"⟩] else .ok []
  internalNetworkPolicyStore := fun idxName idxVal =>
    if idxName == AddressGroupIndex && idxVal == "g1" then .ok [.np c3p] else .ok []

/-- The egress entry for rule 0 of `c3p`. -/
def c3egress : Rule :=
  { toPolicyRef := ⟨"nsB", "policy3", "p3"⟩, Direction := .DirectionOut, RuleIndex := 0 }

/-- The ingress entry for rule 0 of `c3p`. -/
def c3ingress : Rule :=
  { toPolicyRef := ⟨"nsB", "policy3", "p3"⟩, Direction := .DirectionIn, RuleIndex := 0 }

/-- The endpoint produced by the C3 witness scenario. -/
def c3endpoint : Endpoint :=
  { Namespace := "nsB", Name := "podB", Policies := [], Rules := [c3egress, c3ingress] }

/-- The response produced by the C3 witness scenario: one egress and one
ingress entry for rule 0 of `c3p`. -/
def c3resp : EndpointQueryResponse := { Endpoints := [c3endpoint] }

/-- C3: for a successful query, every rule of a policy returned by the
address-group index for a matched AddressGroup yields, if its `To` set
contains the group's UID, an egress entry with `RuleIndex` equal to the
rule's 0-based position, and, if its `From` set contains it, an ingress entry
with the same index; a rule listing the group in both sets yields one entry
per direction (and the query has, by hypothesis, completed rather than
crashed). -/
theorem c3_directional_rule_entries (eq : NetworkPolicyController) (ns pn : String)
    (resp : EndpointQueryResponse) (gs recs : List StoreRecord) (ag : AddressGroup)
    (p : NetworkPolicy) (i : Nat) (r : NetworkPolicyRule)
    (hpod : eq.podGet ns pn = none)
    (hout : QueryNetworkPolicies eq ns pn = .ret (some resp) none)
    (hgs : eq.addressGroupStore PodIndex (pn ++ "/" ++ ns) = .ok gs)
    (hag : StoreRecord.ag ag ∈ gs)
    (hrecs : eq.internalNetworkPolicyStore AddressGroupIndex ag.UID = .ok recs)
    (hp : StoreRecord.np p ∈ recs)
    (hr : p.Rules.get? i = some r) :
    ∃ ep, resp.Endpoints = [ep] ∧
      (ag.UID ∈ r.To.AddressGroups →
        ({ toPolicyRef := ⟨p.Namespace, p.Name, p.UID⟩,
           Direction := .DirectionOut, RuleIndex := i } : Rule) ∈ ep.Rules) ∧
      (ag.UID ∈ r.From.AddressGroups →
        ({ toPolicyRef := ⟨p.Namespace, p.Name, p.UID⟩,
           Direction := .DirectionIn, RuleIndex := i } : Rule) ∈ ep.Rules) := by
  unfold QueryNetworkPolicies at hout
  rw [hpod] at hout
  dsimp only at hout
  cases h1 : eq.appliedToGroupStore PodIndex (pn ++ "/" ++ ns) with
  | error e => rw [h1] at hout; simp at hout
  | ok appliedToGroups =>
    rw [h1] at hout
    dsimp only at hout
    cases h2 : appliedPoliciesLoop eq appliedToGroups with
    | error o =>
      rw [h2] at hout
      dsimp only at hout
      rcases appliedPoliciesLoop_error eq h2 with hE | ⟨e2, hE⟩ <;>
        rw [hE] at hout <;> simp at hout
    | ok applied =>
      rw [h2] at hout
      dsimp only at hout
      rw [hgs] at hout
      dsimp only at hout
      cases h4 : directionalLoop eq gs with
      | error o =>
        rw [h4] at hout
        dsimp only at hout
        rcases directionalLoop_error eq h4 with hE | ⟨e4, hE⟩ <;>
          rw [hE] at hout <;> simp at hout
      | ok dir =>
        rw [h4] at hout
        dsimp only at hout
        simp only [Outcome.ret.injEq, Option.some.injEq, and_true] at hout
        subst hout
        refine ⟨_, rfl, ?_, ?_⟩
        · intro hmem
          rcases directionalLoop_mem eq h4 hag hrecs with ⟨scanned, hsc, m1, _⟩
          have hall := (policiesScanLoop_mem _ hsc hp).1
          have hx := scanRulesFrom_to_mem ag.UID p p.Rules 0 i r hr hmem
          rw [Nat.zero_add] at hx
          have hdir : (p, i) ∈ dir.1 := m1 _ (hall _ hx)
          exact List.mem_append_left _ (List.mem_map.mpr ⟨(p, i), hdir, rfl⟩)
        · intro hmem
          rcases directionalLoop_mem eq h4 hag hrecs with ⟨scanned, hsc, _, m2⟩
          have hall := (policiesScanLoop_mem _ hsc hp).2
          have hx := scanRulesFrom_from_mem ag.UID p p.Rules 0 i r hr hmem
          rw [Nat.zero_add] at hx
          have hdir : (p, i) ∈ dir.2 := m2 _ (hall _ hx)
          exact List.mem_append_right _ (List.mem_map.mpr ⟨(p, i), hdir, rfl⟩)

/-- C3 witness: the theorem applied to the dual-direction scenario; both the
egress and the ingress entry for rule 0 of `c3p` are in the response. -/
theorem c3_directional_rule_entries_witness :
    ∃ ep, c3resp.Endpoints = [ep] ∧
      ((AddressGroup.mk "g1").UID ∈ c3rule0.To.AddressGroups →
        ({ toPolicyRef := ⟨c3p.Namespace, c3p.Name, c3p.UID⟩,
           Direction := .DirectionOut, RuleIndex := 0 } : Rule) ∈ ep.Rules) ∧
      ((AddressGroup.mk "g1").UID ∈ c3rule0.From.AddressGroups →
        ({ toPolicyRef := ⟨c3p.Namespace, c3p.Name, c3p.UID⟩,
           Direction := .DirectionIn, RuleIndex := 0 } : Rule) ∈ ep.Rules) :=
  c3_directional_rule_entries c3ctrl "nsB" "podB" c3resp [.ag ⟨"g1"⟩] [.np c3p]
    ⟨"g1"⟩ c3p 0 c3rule0 rfl (by decide) rfl (by decide) rfl (by decide) rfl

end AntreaQuery
